import Mathlib

/-!
Verification of the `passtider` repository (src/passtider/__init__.py):
a scripted client that walks a multi-step appointment-booking wizard over
HTTP and parses the final HTML page into a slot-availability report.

The embedding below translates the Python source into Lean definitions:
HTML is abstracted as the results of the two CSS-selector queries the
program performs, HTTP responses as status/history/url/body records,
Python exceptions as an explicit error type, and `datetime.strptime`
with format string precision faithful to CPython regex classes.
-/

namespace Passtider

/-- Model of a Python `datetime` value at minute precision, as produced by
`datetime.strptime(s, "%Y-%m-%d %H:%M")` (src line 76-79). -/
structure PyDateTime where
  year : Nat
  month : Nat
  day : Nat
  hour : Nat
  minute : Nat
deriving DecidableEq, Repr

/-- Python `datetime` comparison `first_date < first["available"]` (src line 83):
lexicographic over (year, month, day, hour, minute). -/
def PyDateTime.lt (a b : PyDateTime) : Bool :=
  decide (a.year < b.year ∨ (a.year = b.year ∧ (a.month < b.month ∨ (a.month = b.month ∧
    (a.day < b.day ∨ (a.day = b.day ∧ (a.hour < b.hour ∨ (a.hour = b.hour ∧
      a.minute < b.minute))))))))

/-- A digit character value. -/
def digitVal (c : Char) : Nat := c.toNat - 48

/-- Whether a character is an ASCII digit, as matched by `\d` in the CPython
`_strptime` regexes. -/
def isDig (c : Char) : Bool := decide ('0' ≤ c ∧ c ≤ '9')

/-- CPython `_strptime` directive `%Y`: regex `\d\d\d\d` (exactly four digits). -/
def parseYearRe : List Char → Option (Nat × List Char)
  | c1 :: c2 :: c3 :: c4 :: rest =>
    if isDig c1 ∧ isDig c2 ∧ isDig c3 ∧ isDig c4 then
      some (((digitVal c1 * 10 + digitVal c2) * 10 + digitVal c3) * 10 + digitVal c4, rest)
    else none
  | _ => none

/-- CPython `_strptime` directive `%m`: regex `1[0-2]|0[1-9]|[1-9]`, alternatives
tried left to right. -/
def parseMonthRe : List Char → Option (Nat × List Char)
  | '1' :: c :: rest =>
    if '0' ≤ c ∧ c ≤ '2' then some (10 + digitVal c, rest)
    else some (1, c :: rest)
  | '0' :: c :: rest =>
    if '1' ≤ c ∧ c ≤ '9' then some (digitVal c, rest) else none
  | c :: rest =>
    if '1' ≤ c ∧ c ≤ '9' then some (digitVal c, rest) else none
  | [] => none

/-- CPython `_strptime` directive `%d`: regex `3[01]|[12]\d|0[1-9]|[1-9]`. -/
def parseDayRe : List Char → Option (Nat × List Char)
  | '3' :: c :: rest =>
    if c = '0' ∨ c = '1' then some (30 + digitVal c, rest)
    else some (3, c :: rest)
  | c1 :: c2 :: rest =>
    if (c1 = '1' ∨ c1 = '2') ∧ isDig c2 then some (digitVal c1 * 10 + digitVal c2, rest)
    else if c1 = '0' ∧ ('1' ≤ c2 ∧ c2 ≤ '9') then some (digitVal c2, rest)
    else if '1' ≤ c1 ∧ c1 ≤ '9' then some (digitVal c1, c2 :: rest)
    else none
  | [c] => if '1' ≤ c ∧ c ≤ '9' then some (digitVal c, []) else none
  | [] => none

/-- CPython `_strptime` directive `%H`: regex `2[0-3]|[0-1]\d|\d`. -/
def parseHourRe : List Char → Option (Nat × List Char)
  | '2' :: c :: rest =>
    if '0' ≤ c ∧ c ≤ '3' then some (20 + digitVal c, rest)
    else some (2, c :: rest)
  | c1 :: c2 :: rest =>
    if (c1 = '0' ∨ c1 = '1') ∧ isDig c2 then some (digitVal c1 * 10 + digitVal c2, rest)
    else if isDig c1 then some (digitVal c1, c2 :: rest)
    else none
  | [c] => if isDig c then some (digitVal c, []) else none
  | [] => none

/-- CPython `_strptime` directive `%M`: regex `[0-5]\d|\d`. -/
def parseMinuteRe : List Char → Option (Nat × List Char)
  | c1 :: c2 :: rest =>
    if ('0' ≤ c1 ∧ c1 ≤ '5') ∧ isDig c2 then some (digitVal c1 * 10 + digitVal c2, rest)
    else if isDig c1 then some (digitVal c1, c2 :: rest)
    else none
  | [c] => if isDig c then some (digitVal c, []) else none
  | [] => none

/-- Expect a literal character of the format string. -/
def expectChar (c : Char) : List Char → Option (List Char)
  | x :: rest => if x = c then some rest else none
  | [] => none

/-- Gregorian leap-year rule, as in Python `calendar.isleap`. -/
def isLeapYear (y : Nat) : Bool := decide (y % 4 = 0 ∧ (y % 100 ≠ 0 ∨ y % 400 = 0))

/-- Days in a month, as in Python `calendar.monthrange(y, m)[1]`. -/
def daysInMonth (y m : Nat) : Nat :=
  if m = 2 then (if isLeapYear y then 29 else 28)
  else if m = 4 ∨ m = 6 ∨ m = 9 ∨ m = 11 then 30
  else 31

/-- Model of `datetime.strptime(s, "%Y-%m-%d %H:%M")` (src lines 76-79) on the
characters of `s`: the directive regexes in sequence with the literal `-`,
space and `:` characters, the whole string consumed (otherwise CPython raises
`ValueError: unconverted data remains`), and the `datetime` constructor range
check on the day of month and a positive year. -/
def strptimeChars (cs : List Char) : Option PyDateTime := do
  let (y, cs1) ← parseYearRe cs
  let cs2 ← expectChar '-' cs1
  let (mo, cs3) ← parseMonthRe cs2
  let cs4 ← expectChar '-' cs3
  let (d, cs5) ← parseDayRe cs4
  let cs6 ← expectChar ' ' cs5
  let (h, cs7) ← parseHourRe cs6
  let cs8 ← expectChar ':' cs7
  let (mi, cs9) ← parseMinuteRe cs8
  if cs9 = [] ∧ 1 ≤ y ∧ d ≤ daysInMonth y mo then some ⟨y, mo, d, h, mi⟩ else none

/-- `datetime.strptime(s, "%Y-%m-%d %H:%M")` on a string. -/
def strptime (s : String) : Option PyDateTime := strptimeChars s.data

/-- Python slice `s[:-3]` (src line 75): drop the final three characters
(the empty string when `s` has three or fewer characters). -/
def pyTrim3 (s : String) : String := String.mk (s.data.take (s.data.length - 3))

/-- One slot cell matched by the CSS selector
`tbody tr td.timetable-cells div.cellcontainer div[data-function="timeTableCell"]`
(src lines 65-68); `fromdatetime` is `tag.attrs.get("data-fromdatetime", None)`
(src line 64), absent attributes giving `none`. -/
structure Cell where
  fromdatetime : Option String
deriving DecidableEq, Repr

/-- One `table.timetable` element (src line 52): its
`thead tr th strong#sectionName` text (src line 62) and its slot cells. -/
structure TimeTable where
  sectionName : String
  cells : List Cell
deriving DecidableEq, Repr

/-- The response HTML, abstracted as the results of the two CSS-selector
queries the program performs on it: `table.timetable` elements
(src line 52) and the texts of `.validation-summary-errors ul li` elements
(src lines 141-143). -/
structure Html where
  timetables : List TimeTable
  validationSummaryErrors : List String
deriving DecidableEq, Repr

/-- The Python exceptions the program can raise, with the data each carries.
`stepFailed` is the `requests.exceptions.HTTPError` raised at src line 145
from the step label and scraped validation errors; `statusError` the one
raised by `response.raise_for_status()`; `connectionError` a
network-level `requests` failure; `valueError` the `datetime.strptime`
failure carrying the unparsable string; `typeError` the `None[:-3]`
subscript failure. -/
inductive PyExc where
  | stepFailed (label : String) (errors : List String)
  | statusError (status : Nat)
  | connectionError (msg : String)
  | valueError (raw : String)
  | typeError
deriving DecidableEq, Repr

/-- Whether the exception is an instance of `requests.exceptions.RequestException`,
the only class caught by the per-region `except` clause (src line 239). -/
def PyExc.isRequestException : PyExc → Bool
  | .stepFailed _ _ => true
  | .statusError _ => true
  | .connectionError _ => true
  | .valueError _ => false
  | .typeError => false

/-- The report data of `parse_available_times` (src lines 54-55, 91-95):
the `total["available"]` and `total["places"]` counters of the summary line
and the `first` accumulator (earliest parsed timestamp and its place). -/
structure ParseReport where
  totalAvailable : Nat
  places : Nat
  first : Option (PyDateTime × String)
deriving DecidableEq, Repr

/-- The running-minimum update of the `first` accumulator (src lines 81-85):
replace when there is no current minimum or the new date is strictly
earlier, otherwise keep the current one (ties keep the incumbent). -/
def updateFirst (acc : Option (PyDateTime × String)) (d : PyDateTime) (place : String) :
    Option (PyDateTime × String) :=
  match acc with
  | none => some (d, place)
  | some a => if PyDateTime.lt d a.1 then some (d, place) else some a

/-- One iteration of the `for table in tables` loop (src lines 61-87), acting
on the `(total["available"], first)` accumulator. `time_slots` is the list of
`data-fromdatetime` attribute values of the selector-matched cells
(src lines 63-69); `available = len(time_slots)` counts every matched cell,
attribute or not (src line 70); empty tables are skipped (src lines 71-72);
`time_slots[0][:-3]` on an absent attribute is `None[:-3]`, a `TypeError`;
an unparsable trimmed string is a `ValueError` from `strptime`. -/
def stepTable (acc : Nat × Option (PyDateTime × String)) (t : TimeTable) :
    Except PyExc (Nat × Option (PyDateTime × String)) :=
  match t.cells with
  | [] => .ok acc
  | c0 :: _ =>
    match c0.fromdatetime with
    | none => .error .typeError
    | some s =>
      match strptime (pyTrim3 s) with
      | none => .error (.valueError (pyTrim3 s))
      | some d => .ok (acc.1 + t.cells.length, updateFirst acc.2 d t.sectionName)

/-- The `for table in tables` loop of `parse_available_times`
(src lines 61-87), threading the accumulator; an exception aborts the loop. -/
def parseTables : List TimeTable → (Nat × Option (PyDateTime × String)) →
    Except PyExc (Nat × Option (PyDateTime × String))
  | [], acc => .ok acc
  | t :: ts, acc =>
    match stepTable acc t with
    | .error e => .error e
    | .ok acc2 => parseTables ts acc2

/-- Model of `parse_available_times` (src lines 44-119) on the
`table.timetable` elements of the final HTML: `total["places"] = len(tables)`
(src line 54) and the loop over tables; returns the data of the printed
report, or the exception that escapes the function. -/
def parse_available_times (tables : List TimeTable) : Except PyExc ParseReport :=
  match parseTables tables (0, none) with
  | .error e => .error e
  | .ok (total, first) => .ok ⟨total, tables.length, first⟩

/-- An HTTP response as seen by the program through `requests`:
`response.status_code`, the status codes of `response.history` (the
redirects followed), `response.url` and the body (`response.text`,
abstracted as `Html`). -/
structure HttpResponse where
  status_code : Nat
  history : List Nat
  url : String
  body : Html
deriving DecidableEq, Repr

/-- The outcome of issuing one HTTP request: either a response, or a
connection-level `requests` failure (DNS, timeout, reset) carrying its
message. -/
inductive NetResult where
  | ok : HttpResponse → NetResult
  | connectionFailure : String → NetResult
deriving DecidableEq, Repr

/-- `response.raise_for_status()`: raises `requests.exceptions.HTTPError`
exactly when `400 <= status_code < 600`, and is a no-op otherwise. -/
def raise_for_status (status : Nat) : Except PyExc Unit :=
  if 400 ≤ status ∧ status < 600 then .error (.statusError status) else .ok ()

/-- The status check `if response.status_code != 200: response.raise_for_status()`
(src lines 133-134 in `do_post`, and lines 171-172 after the region GET). -/
def checkStatus (r : HttpResponse) : Except PyExc Unit :=
  if r.status_code ≠ 200 then raise_for_status r.status_code else .ok ()

/-- Model of `do_post` (src lines 122-149) given the network's answer to the
POST: the status check, the default label `response.url`, the
redirect-history success condition `len(history) == 1 and history[-1].status_code == 302`,
and on its failure the `HTTPError` carrying the label and the texts scraped
from `.validation-summary-errors ul li`; on success the response body. -/
def do_post (res : NetResult) (label : Option String) : Except PyExc Html :=
  match res with
  | .connectionFailure m => .error (.connectionError m)
  | .ok r =>
    match checkStatus r with
    | .error e => .error e
    | .ok _ =>
      if r.history.length ≠ 1 ∨ r.history.getLast? ≠ some 302 then
        .error (.stepFailed (label.getD r.url) r.body.validationSummaryErrors)
      else
        .ok r.body

/-- The network's answers for one region: the GET of the booking index page
(src lines 167-169) and the four wizard-step POSTs (src lines 174-236). -/
structure RegionEnv where
  getResult : NetResult
  post1 : NetResult
  post2 : NetResult
  post3 : NetResult
  post4 : NetResult
deriving Repr

/-- The body of the per-region `try` block (src lines 165-238): GET the index
page and check its status, run the four wizard POSTs with their labels, and
parse the final response body. Any exception escapes to the per-region
handler. -/
def processRegion (env : RegionEnv) : Except PyExc ParseReport :=
  match env.getResult with
  | .connectionFailure m => .error (.connectionError m)
  | .ok r =>
    match checkStatus r with
    | .error e => .error e
    | .ok _ =>
      match do_post env.post1 (some "Boka ny tid") with
      | .error e => .error e
      | .ok _ =>
        match do_post env.post2 (some "Godkänn villkor") with
        | .error e => .error e
        | .ok _ =>
          match do_post env.post3 (some "Bor i Sverige") with
          | .error e => .error e
          | .ok _ =>
            match do_post env.post4 (some "Första lediga tid") with
            | .error e => .error e
            | .ok html => parse_available_times html.timetables

/-- The configured regions, in insertion order of the `regions` dict
(src lines 155-159). -/
def regions : List (String × String) :=
  [("vasternorrland", "14"), ("gavleborg", "19"), ("jamtland", "18")]

/-- What happened to one region inside the loop: its report, or the exception
caught by the `except requests.exceptions.RequestException` clause
(src line 239) and reported. -/
inductive RegionOutcome where
  | succeeded : ParseReport → RegionOutcome
  | failedCaught : PyExc → RegionOutcome
deriving Repr

/-- The observable outcome of `main` (src lines 152-246): the per-region
outcomes in order of processing, whether the final elapsed-time summary
line (src line 244) was reached, and the exception, if any, that escaped
`main` uncaught. -/
structure RunResult where
  outcomes : List (String × RegionOutcome)
  summaryPrinted : Bool
  uncaught : Option PyExc
deriving Repr

/-- The `for region, service_group_id in regions.items()` loop (src line 163):
each region runs inside `try`; a `requests.exceptions.RequestException` is
caught and reported and the loop continues; any other exception propagates
out of `main`, at which point no further region runs and the final summary
line is never printed. -/
def mainGo (env : String → RegionEnv) :
    List (String × String) → List (String × RegionOutcome) → RunResult
  | [], acc => ⟨acc.reverse, true, none⟩
  | (region, _sgid) :: rest, acc =>
    match processRegion (env region) with
    | .ok rep => mainGo env rest ((region, .succeeded rep) :: acc)
    | .error e =>
      if e.isRequestException then mainGo env rest ((region, .failedCaught e) :: acc)
      else ⟨acc.reverse, false, some e⟩

/-- Model of `main` (src lines 152-246) over the configured regions, given
the network's answers per region. -/
def mainLoop (env : String → RegionEnv) : RunResult := mainGo env regions []

/-- The components of a `dateutil.relativedelta` read by the report
(src lines 98-117): `years`, `months` and `days`. -/
structure RelativeDelta where
  years : Int
  months : Int
  days : Int
deriving DecidableEq, Repr

/-- `relativedelta._set_months`: normalize a month count into years plus a
month remainder of the same sign, `(years, months)`. -/
def setMonths (months : Int) : Int × Int :=
  if months.natAbs > 11 then
    let s : Int := if 0 ≤ months then 1 else -1
    ((months * s) / 12 * s, (months * s) % 12 * s)
  else (0, months)

/-- Proleptic Gregorian ordinal of the date, as `datetime.toordinal()`:
day 1 is January 1 of year 1. -/
def dateOrdinal (dt : PyDateTime) : Nat :=
  let y := dt.year - 1
  let pre : Nat :=
    match dt.month with
    | 1 => 0 | 2 => 31 | 3 => 59 | 4 => 90 | 5 => 120 | 6 => 151
    | 7 => 181 | 8 => 212 | 9 => 243 | 10 => 273 | 11 => 304 | _ => 334
  365 * y + y / 4 - y / 100 + y / 400 + pre +
    (if 2 < dt.month ∧ isLeapYear dt.year then 1 else 0) + dt.day

/-- Minutes since the epoch of `dateOrdinal`, for `datetime` subtraction. -/
def dtMinutes (dt : PyDateTime) : Int :=
  (dateOrdinal dt : Int) * 1440 + dt.hour * 60 + dt.minute

/-- `dt + relativedelta(years=.., months=..)` as in `relativedelta.__radd__`:
add the years, shift the month wrapping the year, clamp the day to the
target month length. -/
def rdAdd (years months : Int) (dt : PyDateTime) : PyDateTime :=
  let yr : Int := (dt.year : Int) + years
  let p : Int × Int :=
    if months ≠ 0 then
      let m := (dt.month : Int) + months
      if m > 12 then (yr + 1, m - 12)
      else if m < 1 then (yr - 1, m + 12)
      else (yr, m)
    else (yr, (dt.month : Int))
  let day := min dt.day (daysInMonth p.1.toNat p.2.toNat)
  ⟨p.1.toNat, p.2.toNat, day, dt.hour, dt.minute⟩

/-- `dt2 + relativedelta` for a raw month count, via `_set_months`. -/
def rdDtm (dt2 : PyDateTime) (months : Int) : PyDateTime :=
  let p := setMonths months
  rdAdd p.1 p.2 dt2

/-- The overshoot-adjustment loop of `relativedelta.__init__` for two
datetimes: while `compare(dt1, dtm)` move the month estimate by
`increment` and recompute `dtm = dt2 + self`. Fuel-bounded; the real loop
runs at most a couple of iterations. -/
def rdLoop (dt1 dt2 : PyDateTime) (inc : Int) : Nat → Int → Int
  | 0, months => months
  | fuel + 1, months =>
    let dtm := rdDtm dt2 months
    let cont := if inc = 1 then PyDateTime.lt dtm dt1 else PyDateTime.lt dt1 dtm
    if cont then rdLoop dt1 dt2 inc fuel (months + inc) else months

/-- `relativedelta(dt1, dt2)` of `dateutil` for two datetimes: the month
estimate from the year and month fields, the overshoot-adjustment loop,
then the day difference of `dt1 - dtm` (floored as `timedelta.days`), and
the normalized `(years, months)` split. -/
def relativedelta (dt1 dt2 : PyDateTime) : RelativeDelta :=
  let months0 : Int := ((dt1.year : Int) - dt2.year) * 12 + ((dt1.month : Int) - dt2.month)
  let inc : Int := if PyDateTime.lt dt1 dt2 then 1 else -1
  let months := rdLoop dt1 dt2 inc 60 months0
  let dtm := rdDtm dt2 months
  let days := (dtMinutes dt1 - dtMinutes dtm).ediv 1440
  let p := setMonths months
  ⟨p.1, p.2, days⟩

/-- Model of `human_readable` (src lines 18-41): for each of `years`,
`months`, `days` in that order, skip a zero value, otherwise render
`f"{value} {word_sv}"` where the Swedish noun is the plural form when
`value > 1` and the singular form otherwise (the two forms of `year`
coincide as `år`). -/
def human_readable (rd : RelativeDelta) : List String :=
  (if rd.years = 0 then [] else
    [toString rd.years ++ " " ++ (if rd.years > 1 then "år" else "år")]) ++
  (if rd.months = 0 then [] else
    [toString rd.months ++ " " ++ (if rd.months > 1 then "månader" else "månad")]) ++
  (if rd.days = 0 then [] else
    [toString rd.days ++ " " ++ (if rd.days > 1 then "dagar" else "dag")])

/-- The joining of the `until` component list (src lines 100-104):
`", ".join(until[:-1]) + f" och {until[-1]}"` when there is more than one
component, else `until[0]` — which on an empty list is an `IndexError`,
modelled as `none`. -/
def untilText (xs : List String) : Option String :=
  if xs.length > 1 then
    some (String.intercalate ", " xs.dropLast ++ " och " ++ (xs.getLast?.getD ""))
  else xs.head?

/-- The mood-indicator selection (src lines 106-115): the `if/elif` chain on
the relative delta. -/
def selectIcon (rd : RelativeDelta) : String :=
  if rd.years > 0 then ":angry_face:"
  else if rd.months > 0 then ":weary_face:"
  else if rd.days > 25 then ":slightly_smiling_face:"
  else if rd.days > 15 then ":beaming_face_with_smiling_eyes:"
  else ":star-struck:"

/-- The characters of the pattern literal in
`re.sub(r" for url: .*", "", str(e))` (src line 240), without the `.*`. -/
def urlMarker : List Char := " for url: ".data

/-- Whether the pattern characters occur at the head of the text. -/
def startsWithChars : List Char → List Char → Bool
  | [], _ => true
  | _ :: _, [] => false
  | p :: ps, c :: cs => p = c && startsWithChars ps cs

/-- Within one line, `re.sub(r" for url: .*", "", line)`: the regex matches at
the leftmost occurrence of the literal and `.*` greedily consumes the rest
of the line, so the line is cut at the first occurrence of the marker. -/
def cutAtMarker : List Char → List Char
  | [] => []
  | c :: rest =>
    if startsWithChars urlMarker (c :: rest) then [] else c :: cutAtMarker rest

/-- Split on newline characters, as the `.` of the pattern cannot match a
newline: `re.sub` acts on each line independently. -/
def splitOnNl : List Char → List (List Char)
  | [] => [[]]
  | c :: rest =>
    let r := splitOnNl rest
    if c = '\n' then [] :: r
    else
      match r with
      | [] => [[c]]
      | line :: more => (c :: line) :: more

/-- Re-join the lines with newlines. -/
def joinNl : List (List Char) → List Char
  | [] => []
  | [l] => l
  | l :: rest => l ++ '\n' :: joinNl rest

/-- Model of the message sanitization `re.sub(r" for url: .*", "", str(e))`
(src line 240): since `.` does not match a newline, each line of the
message is cut at its first occurrence of the marker. -/
def sanitize_message (s : String) : String :=
  String.mk (joinNl ((splitOnNl s.data).map cutAtMarker))

/-- The least index at which the marker occurs in the text, if any. -/
def firstMarkerIndex : List Char → Option Nat
  | [] => none
  | c :: rest =>
    if startsWithChars urlMarker (c :: rest) then some 0
    else (firstMarkerIndex rest).map (fun k => k + 1)

/-- The per-table datum driving the earliest-slot selection (src lines 62-85):
for a table with at least one slot cell, the parsed timestamp of its first
cell's attribute together with the section name; `none` when the table has
no cells (skipped) or its first cell would make the loop raise. -/
def tableEntry (t : TimeTable) : Option (PyDateTime × String) :=
  match t.cells with
  | [] => none
  | c0 :: _ =>
    match c0.fromdatetime with
    | none => none
    | some s => (strptime (pyTrim3 s)).map (fun d => (d, t.sectionName))

/-- The per-table data of a table sequence, in order. -/
def entries (ts : List TimeTable) : List (PyDateTime × String) := ts.filterMap tableEntry

/-- The running-minimum scan over per-table data, as the loop performs it. -/
def foldFirst : Option (PyDateTime × String) → List (PyDateTime × String) →
    Option (PyDateTime × String)
  | acc, [] => acc
  | acc, e :: l => foldFirst (updateFirst acc e.1 e.2) l

/-- Modelled from the spec words for C6: a table's slot count is "the number
of cells matching the slot-cell selector carrying the machine-readable
datetime attribute" — i.e. only cells whose `data-fromdatetime` is present. -/
def specSlotCellsWithAttr (ts : List TimeTable) : Nat :=
  (ts.map (fun t => (t.cells.filter (fun c => c.fromdatetime.isSome)).length)).sum

/-- Modelled from the spec words for C7: the correct Swedish noun form,
singular for the value one and plural otherwise. -/
def specSwedishNoun (value : Int) (singular plural : String) : String :=
  if value = 1 then singular else plural

/-- Modelled from the spec words for C7: the nonzero components among years,
months and days, each rendered as the value followed by the Swedish noun. -/
def specDurationComponents (rd : RelativeDelta) : List String :=
  (if rd.years = 0 then [] else
    [toString rd.years ++ " " ++ specSwedishNoun rd.years "år" "år"]) ++
  (if rd.months = 0 then [] else
    [toString rd.months ++ " " ++ specSwedishNoun rd.months "månad" "månader"]) ++
  (if rd.days = 0 then [] else
    [toString rd.days ++ " " ++ specSwedishNoun rd.days "dag" "dagar"])

/-- Modelled from the spec words for C7: components joined with commas and a
final och before the last, no conjunction for a single component. -/
def specJoinText : List String → Option String
  | [] => none
  | [single] => some single
  | comps => some (String.intercalate ", " comps.dropLast ++ " och " ++ (comps.getLast?.getD ""))

/-- Fixture: a wizard-step response that satisfies the success condition. -/
def okStepResp : HttpResponse := ⟨200, [302], "https://bokapass.nemoq.se/ok", ⟨[], []⟩⟩

/-- Fixture: a region whose every request succeeds and whose final page has
no timetables. -/
def goodEnv : RegionEnv :=
  ⟨.ok ⟨200, [], "https://bokapass.nemoq.se/index", ⟨[], []⟩⟩,
   .ok okStepResp, .ok okStepResp, .ok okStepResp, .ok okStepResp⟩

/-- Fixture: a timetable whose first slot attribute does not trim to a
parsable timestamp. -/
def badHtmlTable : TimeTable := ⟨"Sundsvall", [⟨some "not a datetime"⟩]⟩

/-- Fixture: a region whose wizard succeeds but whose final page makes
`datetime.strptime` raise `ValueError`. -/
def badEnv : RegionEnv :=
  ⟨.ok ⟨200, [], "https://bokapass.nemoq.se/index", ⟨[], []⟩⟩,
   .ok okStepResp, .ok okStepResp, .ok okStepResp,
   .ok ⟨200, [302], "https://bokapass.nemoq.se/ok", ⟨[badHtmlTable], []⟩⟩⟩

/-- Fixture: a non-200, non-error response (204 No Content) whose redirect
history nonetheless satisfies the wizard success condition. -/
def resp204 : HttpResponse := ⟨204, [302], "https://bokapass.nemoq.se/u", ⟨[], []⟩⟩

/-- Fixture: two offices whose first slots carry the same timestamp. -/
def tieA : TimeTable := ⟨"A", [⟨some "2024-06-01 09:30:00"⟩]⟩

/-- Fixture: the second office of the tie, another place name. -/
def tieB : TimeTable := ⟨"B", [⟨some "2024-06-01 09:30:00"⟩]⟩

/-- Fixture: two offices with distinct first-slot timestamps. -/
def earlyC : TimeTable := ⟨"C", [⟨some "2024-05-01 10:00:00"⟩]⟩

/-- Fixture: a table with one attribute-carrying cell and one selector-matched
cell without the datetime attribute. -/
def c6table : TimeTable := ⟨"A", [⟨some "2024-06-01 09:30:00"⟩, ⟨none⟩]⟩

/-- Fixture: a table whose first selector-matched cell has no
`data-fromdatetime` attribute. -/
def tNoAttr : TimeTable := ⟨"Umeå", [⟨none⟩]⟩

theorem PyDateTime.lt_irrefl (a : PyDateTime) : PyDateTime.lt a a = false := by
  simp [PyDateTime.lt]

theorem PyDateTime.lt_asymm {a b : PyDateTime} (h : PyDateTime.lt a b = true) :
    PyDateTime.lt b a = false := by
  simp only [PyDateTime.lt, decide_eq_true_eq] at h
  simp only [PyDateTime.lt, decide_eq_false_iff_not]
  omega

theorem PyDateTime.lt_total_eq {a b : PyDateTime} (h1 : PyDateTime.lt a b = false)
    (h2 : PyDateTime.lt b a = false) : a = b := by
  cases a; cases b
  simp only [PyDateTime.lt, decide_eq_false_iff_not] at h1 h2
  simp only [PyDateTime.mk.injEq]
  omega

theorem PyDateTime.lt_trans_le {a b c : PyDateTime} (h1 : PyDateTime.lt a b = true)
    (h2 : PyDateTime.lt c b = false) : PyDateTime.lt a c = true := by
  simp only [PyDateTime.lt, decide_eq_true_eq] at h1 ⊢
  simp only [PyDateTime.lt, decide_eq_false_iff_not] at h2
  omega

theorem PyDateTime.lt_le_trans {a b c : PyDateTime} (h1 : PyDateTime.lt b a = false)
    (h2 : PyDateTime.lt b c = true) : PyDateTime.lt a c = true := by
  simp only [PyDateTime.lt, decide_eq_true_eq] at h2 ⊢
  simp only [PyDateTime.lt, decide_eq_false_iff_not] at h1
  omega

theorem updateFirst_none_eq (d : PyDateTime) (p : String) :
    updateFirst none d p = some (d, p) := rfl

theorem updateFirst_some_eq (a : PyDateTime × String) (d : PyDateTime) (p : String) :
    updateFirst (some a) d p =
      if PyDateTime.lt d a.1 then some (d, p) else some a := rfl

theorem foldFirst_ne_none : ∀ (l : List (PyDateTime × String)) (a : PyDateTime × String),
    foldFirst (some a) l ≠ none := by
  intro l
  induction l with
  | nil => intro a h; exact Option.noConfusion h
  | cons e l ih =>
    intro a
    show foldFirst (updateFirst (some a) e.1 e.2) l ≠ none
    rw [updateFirst_some_eq]
    by_cases hc : PyDateTime.lt e.1 a.1 = true
    · rw [if_pos hc]; exact ih _
    · rw [if_neg hc]; exact ih _

theorem foldFirst_min : ∀ (l : List (PyDateTime × String)) (acc : Option (PyDateTime × String))
    (e : PyDateTime × String), foldFirst acc l = some e →
    (acc = some e ∨ e ∈ l) ∧
    (∀ x ∈ l, PyDateTime.lt x.1 e.1 = false) ∧
    (∀ a, acc = some a → PyDateTime.lt a.1 e.1 = false) := by
  intro l
  induction l with
  | nil =>
    intro acc e h
    refine ⟨Or.inl h, by simp, ?_⟩
    intro a ha
    rw [ha] at h
    cases Option.some.inj h
    exact PyDateTime.lt_irrefl _
  | cons y l ih =>
    intro acc e h
    have h0 : foldFirst (updateFirst acc y.1 y.2) l = some e := h
    obtain ⟨h1, h2, h3⟩ := ih (updateFirst acc y.1 y.2) e h0
    cases acc with
    | none =>
      have hu : updateFirst (none : Option (PyDateTime × String)) y.1 y.2 = some y := rfl
      refine ⟨?_, ?_, ?_⟩
      · rcases h1 with h1 | h1
        · rw [hu] at h1
          exact Or.inr (by rw [← Option.some.inj h1]; exact List.mem_cons_self y l)
        · exact Or.inr (List.mem_cons_of_mem y h1)
      · intro x hx
        rcases List.mem_cons.mp hx with hx | hx
        · rw [hx]; exact h3 y hu
        · exact h2 x hx
      · intro a ha; exact Option.noConfusion ha
    | some a0 =>
      cases hcmp : PyDateTime.lt y.1 a0.1 with
      | true =>
        have hu : updateFirst (some a0) y.1 y.2 = some y := by
          rw [updateFirst_some_eq, if_pos hcmp]
        have hye : PyDateTime.lt y.1 e.1 = false := h3 y hu
        refine ⟨?_, ?_, ?_⟩
        · rcases h1 with h1 | h1
          · rw [hu] at h1
            exact Or.inr (by rw [← Option.some.inj h1]; exact List.mem_cons_self y l)
          · exact Or.inr (List.mem_cons_of_mem y h1)
        · intro x hx
          rcases List.mem_cons.mp hx with hx | hx
          · rw [hx]; exact hye
          · exact h2 x hx
        · intro a ha
          cases Option.some.inj ha
          cases hae : PyDateTime.lt a0.1 e.1 with
          | false => rfl
          | true =>
            have hlt : PyDateTime.lt a0.1 y.1 = true := PyDateTime.lt_trans_le hae hye
            rw [PyDateTime.lt_asymm hlt] at hcmp
            exact Bool.noConfusion hcmp
      | false =>
        have hu : updateFirst (some a0) y.1 y.2 = some a0 := by
          rw [updateFirst_some_eq, if_neg (by rw [hcmp]; exact Bool.false_ne_true)]
        have hae : PyDateTime.lt a0.1 e.1 = false := h3 a0 hu
        refine ⟨?_, ?_, ?_⟩
        · rcases h1 with h1 | h1
          · rw [hu] at h1; exact Or.inl (by rw [h1])
          · exact Or.inr (List.mem_cons_of_mem y h1)
        · intro x hx
          rcases List.mem_cons.mp hx with hx | hx
          · rw [hx]
            cases hye : PyDateTime.lt y.1 e.1 with
            | false => rfl
            | true =>
              have hlt : PyDateTime.lt y.1 a0.1 = true := PyDateTime.lt_trans_le hye hae
              rw [hlt] at hcmp
              exact Bool.noConfusion hcmp
          · exact h2 x hx
        · intro a ha
          cases Option.some.inj ha
          exact hae

theorem parseTables_fields : ∀ (ts : List TimeTable) (n : Nat)
    (acc : Option (PyDateTime × String)) (res : Nat × Option (PyDateTime × String)),
    parseTables ts (n, acc) = .ok res →
    res.1 = n + (ts.map (fun t => t.cells.length)).sum ∧
    res.2 = foldFirst acc (entries ts) := by
  intro ts
  induction ts with
  | nil =>
    intro n acc res h
    cases Except.ok.inj h
    simp [entries, foldFirst]
  | cons t ts ih =>
    intro n acc res h
    have hstep : parseTables (t :: ts) (n, acc) =
        match stepTable (n, acc) t with
        | .error e => .error e
        | .ok acc2 => parseTables ts acc2 := rfl
    rw [hstep] at h
    cases hc : t.cells with
    | nil =>
      have hs : stepTable (n, acc) t = .ok (n, acc) := by
        simp only [stepTable, hc]
      rw [hs] at h
      obtain ⟨ih1, ih2⟩ := ih n acc res h
      have he : entries (t :: ts) = entries ts := by
        simp [entries, List.filterMap_cons, tableEntry, hc]
      constructor
      · rw [ih1]; simp [hc]
      · rw [ih2, he]
    | cons c0 cs =>
      cases hf : c0.fromdatetime with
      | none =>
        have hs : stepTable (n, acc) t = .error .typeError := by
          simp only [stepTable, hc, hf]
        rw [hs] at h
        exact Except.noConfusion h
      | some s =>
        cases hp : strptime (pyTrim3 s) with
        | none =>
          have hs : stepTable (n, acc) t = .error (.valueError (pyTrim3 s)) := by
            simp only [stepTable, hc, hf, hp]
          rw [hs] at h
          exact Except.noConfusion h
        | some d =>
          have hs : stepTable (n, acc) t =
              .ok (n + t.cells.length, updateFirst acc d t.sectionName) := by
            simp only [stepTable, hc, hf, hp]
          rw [hs] at h
          obtain ⟨ih1, ih2⟩ := ih _ _ res h
          have he : entries (t :: ts) = (d, t.sectionName) :: entries ts := by
            simp [entries, List.filterMap_cons, tableEntry, hc, hf, hp]
          constructor
          · rw [ih1]; simp [hc]; omega
          · rw [ih2, he]; rfl

theorem parse_ok_fields {ts : List TimeTable} {r : ParseReport}
    (h : parse_available_times ts = .ok r) :
    r.totalAvailable = (ts.map (fun t => t.cells.length)).sum ∧
    r.places = ts.length ∧
    r.first = foldFirst none (entries ts) := by
  unfold parse_available_times at h
  cases hp : parseTables ts (0, none) with
  | error e => rw [hp] at h; exact Except.noConfusion h
  | ok res =>
    rw [hp] at h
    obtain ⟨h1, h2⟩ := parseTables_fields ts 0 none res hp
    obtain ⟨tot, fst⟩ := res
    cases Except.ok.inj h
    refine ⟨?_, rfl, ?_⟩
    · simpa using h1
    · simpa using h2

theorem foldFirst_none_isSome {l : List (PyDateTime × String)} (h : l ≠ []) :
    foldFirst none l ≠ none := by
  match l with
  | [] => exact absurd rfl h
  | y :: l =>
    show foldFirst (updateFirst none y.1 y.2) l ≠ none
    rw [updateFirst_none_eq]
    exact foldFirst_ne_none l (y.1, y.2)

theorem parse_first_min {ts : List TimeTable} {r : ParseReport}
    (h : parse_available_times ts = .ok r) :
    ∀ e, r.first = some e → e ∈ entries ts ∧
      ∀ x ∈ entries ts, PyDateTime.lt x.1 e.1 = false := by
  obtain ⟨-, -, hf⟩ := parse_ok_fields h
  intro e he
  rw [hf] at he
  obtain ⟨h1, h2, -⟩ := foldFirst_min (entries ts) none e he
  rcases h1 with h1 | h1
  · exact Option.noConfusion h1
  · exact ⟨h1, h2⟩

theorem parse_first_none {ts : List TimeTable} {r : ParseReport}
    (h : parse_available_times ts = .ok r) (hn : r.first = none) : entries ts = [] := by
  obtain ⟨-, -, hf⟩ := parse_ok_fields h
  by_contra hne
  exact foldFirst_none_isSome hne (by rw [← hf, hn])

/-- Claim C2 (amended): for every pair of permuted table sequences on which
`parse_available_times` succeeds, the reported earliest office attains the
true minimum parsed first-slot timestamp among offices with at least one
slot; the winning timestamp is invariant under the permutation; and the
winning office is invariant as well provided the offices' first-slot
timestamps are pairwise distinct (the code breaks ties by HTML order, so
with a tie the winner can change under permutation). -/
theorem c2_earliest_is_min_and_perm (ts tsB : List TimeTable) (r rB : ParseReport)
    (hperm : ts.Perm tsB)
    (h : parse_available_times ts = .ok r)
    (hB : parse_available_times tsB = .ok rB) :
    (∀ e, r.first = some e → e ∈ entries ts ∧
      ∀ x ∈ entries ts, PyDateTime.lt x.1 e.1 = false) ∧
    r.first.map Prod.fst = rB.first.map Prod.fst ∧
    (((entries ts).map Prod.fst).Nodup → r.first = rB.first) := by
  have hpermE : (entries ts).Perm (entries tsB) := hperm.filterMap tableEntry
  have hmin := parse_first_min h
  have hminB := parse_first_min hB
  have hbothsome : ∀ e, r.first = some e → ∃ eB, rB.first = some eB := by
    intro e he
    cases hreB : rB.first with
    | some eB => exact ⟨eB, rfl⟩
    | none =>
      have hnilB : entries tsB = [] := parse_first_none hB hreB
      have hnil : entries ts = [] := (hnilB ▸ hpermE).eq_nil
      have := (hmin e he).1
      rw [hnil] at this
      exact absurd this (List.not_mem_nil e)
  have hdates : ∀ e eB, r.first = some e → rB.first = some eB → e.1 = eB.1 := by
    intro e eB he heB
    obtain ⟨hme, hle⟩ := hmin e he
    obtain ⟨hmeB, hleB⟩ := hminB eB heB
    have h1 : PyDateTime.lt e.1 eB.1 = false := hleB e (hpermE.mem_iff.mp hme)
    have h2 : PyDateTime.lt eB.1 e.1 = false := hle eB (hpermE.mem_iff.mpr hmeB)
    exact PyDateTime.lt_total_eq h1 h2
  refine ⟨hmin, ?_, ?_⟩
  · cases hre : r.first with
    | none =>
      have hnil : entries ts = [] := parse_first_none h hre
      have hnilB : entries tsB = [] := (hnil ▸ hpermE).symm.eq_nil
      cases hreB : rB.first with
      | none => rfl
      | some eB =>
        have := (hminB eB hreB).1
        rw [hnilB] at this
        exact absurd this (List.not_mem_nil eB)
    | some e =>
      obtain ⟨eB, hreB⟩ := hbothsome e hre
      rw [hreB]
      exact congrArg (fun d => some d) (hdates e eB hre hreB)
  · intro hnd
    cases hre : r.first with
    | none =>
      have hnil : entries ts = [] := parse_first_none h hre
      have hnilB : entries tsB = [] := (hnil ▸ hpermE).symm.eq_nil
      cases hreB : rB.first with
      | none => rfl
      | some eB =>
        have := (hminB eB hreB).1
        rw [hnilB] at this
        exact absurd this (List.not_mem_nil eB)
    | some e =>
      obtain ⟨eB, hreB⟩ := hbothsome e hre
      rw [hreB]
      have hdeq : e.1 = eB.1 := hdates e eB hre hreB
      have hmem : e ∈ entries ts := (hmin e hre).1
      have hmemB : eB ∈ entries ts := hpermE.mem_iff.mpr (hminB eB hreB).1
      exact congrArg some (List.inj_on_of_nodup_map hnd hmem hmemB hdeq)

/-- Claim C2 as stated is false on the code: two offices whose first slots
carry the same timestamp are a permutation pair on which the reported
winning office changes with the order of the tables in the HTML. -/
theorem c2_counterexample :
    ([tieA, tieB]).Perm [tieB, tieA] ∧
    parse_available_times [tieA, tieB] =
      .ok ⟨2, 2, some (⟨2024, 6, 1, 9, 30⟩, "A")⟩ ∧
    parse_available_times [tieB, tieA] =
      .ok ⟨2, 2, some (⟨2024, 6, 1, 9, 30⟩, "B")⟩ ∧
    (some ((⟨2024, 6, 1, 9, 30⟩ : PyDateTime), "A") ≠
      some ((⟨2024, 6, 1, 9, 30⟩ : PyDateTime), "B")) :=
  ⟨List.Perm.swap tieB tieA [], rfl, rfl, by decide⟩

/-- Witness for C2: two offices with distinct first-slot timestamps, supplied
in both orders; the theorem yields the same winner for both. -/
theorem c2_witness :
    ∃ r rB : ParseReport,
      parse_available_times [tieA, earlyC] = .ok r ∧
      parse_available_times [earlyC, tieA] = .ok rB ∧
      r.first = rB.first := by
  refine ⟨⟨2, 2, some (⟨2024, 5, 1, 10, 0⟩, "C")⟩, ⟨2, 2, some (⟨2024, 5, 1, 10, 0⟩, "C")⟩,
    rfl, rfl, ?_⟩
  exact (c2_earliest_is_min_and_perm [tieA, earlyC] [earlyC, tieA] _ _
    (List.Perm.swap earlyC tieA []) rfl rfl).2.2 (by decide)

/-- Claim C1: with the status check passed, `do_post` returns the response
body if and only if the redirect history is exactly one entry of status 302;
otherwise it raises the error carrying the step label (defaulting to the
response URL) and the scraped validation-error texts, and returns no body. -/
theorem c1_do_post_success_iff (r : HttpResponse) (label : Option String)
    (hs : checkStatus r = .ok ()) :
    (do_post (.ok r) label = .ok r.body ↔
      (r.history.length = 1 ∧ r.history.getLast? = some 302)) ∧
    (¬ (r.history.length = 1 ∧ r.history.getLast? = some 302) →
      do_post (.ok r) label =
        .error (.stepFailed (label.getD r.url) r.body.validationSummaryErrors)) := by
  have hd : do_post (.ok r) label =
      if r.history.length ≠ 1 ∨ r.history.getLast? ≠ some 302 then
        .error (.stepFailed (label.getD r.url) r.body.validationSummaryErrors)
      else .ok r.body := by
    simp only [do_post, hs]
  constructor
  · constructor
    · intro hok
      by_contra hc
      rw [hd, if_pos (by tauto)] at hok
      exact Except.noConfusion hok
    · intro hcond
      rw [hd, if_neg (by tauto)]
  · intro hc
    rw [hd, if_pos (by tauto)]

/-- Witness for C1: a 200 response with a single 302 redirect succeeds and
returns its body. -/
theorem c1_witness : do_post (.ok okStepResp) none = .ok okStepResp.body :=
  (c1_do_post_success_iff okStepResp none rfl).1.mpr ⟨rfl, rfl⟩

/-- Claim C5 (amended): the status guard raises `HTTPError` exactly for the
4xx and 5xx statuses `raise_for_status` covers, on both the region-opening
GET check and every wizard-step POST; a non-200 status below 400 passes the
guard (`raise_for_status` is then a no-op) and processing continues to the
redirect-history check. -/
theorem c5_status_error (r : HttpResponse) (label : Option String)
    (h4 : 400 ≤ r.status_code) (h6 : r.status_code < 600) :
    do_post (.ok r) label = .error (.statusError r.status_code) ∧
    checkStatus r = .error (.statusError r.status_code) := by
  have hne : r.status_code ≠ 200 := by omega
  have hcs : checkStatus r = .error (.statusError r.status_code) := by
    unfold checkStatus raise_for_status
    rw [if_pos hne, if_pos ⟨h4, h6⟩]
  refine ⟨?_, hcs⟩
  simp only [do_post, hcs]

/-- Claim C5 as stated is false on the code: a 204 No Content response is
not 200 yet raises nothing — `raise_for_status` is a no-op below 400 — and
with a single 302 redirect in history `do_post` returns its body. -/
theorem c5_counterexample :
    resp204.status_code ≠ 200 ∧
    do_post (.ok resp204) none = .ok resp204.body :=
  ⟨by decide, rfl⟩

/-- Witness for C5: a 404 response raises `HTTPError` at the status guard. -/
theorem c5_witness :
    do_post (.ok ⟨404, [], "u", ⟨[], []⟩⟩) none = .error (.statusError 404) ∧
    checkStatus ⟨404, [], "u", ⟨[], []⟩⟩ = .error (.statusError 404) :=
  c5_status_error ⟨404, [], "u", ⟨[], []⟩⟩ none (by decide) (by decide)

/-- Claim C6 (amended): when `parse_available_times` completes, the summary
reports the number of `table.timetable` elements as the office count, and as
the total slot count the number of selector-matched slot cells — including
cells that do not carry the `data-fromdatetime` attribute. -/
theorem c6_counts (ts : List TimeTable) (r : ParseReport)
    (h : parse_available_times ts = .ok r) :
    r.totalAvailable = (ts.map (fun t => t.cells.length)).sum ∧
    r.places = ts.length :=
  ⟨(parse_ok_fields h).1, (parse_ok_fields h).2.1⟩

/-- Claim C6 as stated is false on the code: a table with one
attribute-carrying cell and one attribute-less selector-matched cell is
reported with slot count 2, while the cells carrying the machine-readable
datetime attribute number only 1. -/
theorem c6_counterexample :
    parse_available_times [c6table] = .ok ⟨2, 1, some (⟨2024, 6, 1, 9, 30⟩, "A")⟩ ∧
    specSlotCellsWithAttr [c6table] = 1 ∧
    (2 : Nat) ≠ 1 :=
  ⟨rfl, rfl, by decide⟩

/-- Witness for C6: the counts at a concrete successful parse. -/
theorem c6_witness :
    (⟨2, 1, some (⟨2024, 6, 1, 9, 30⟩, "A")⟩ : ParseReport).totalAvailable =
      ([c6table].map (fun t => t.cells.length)).sum ∧
    (⟨2, 1, some (⟨2024, 6, 1, 9, 30⟩, "A")⟩ : ParseReport).places = [c6table].length :=
  c6_counts [c6table] ⟨2, 1, some (⟨2024, 6, 1, 9, 30⟩, "A")⟩ rfl

/-- Claim C10: on a timetable whose first selector-matched cell lacks the
`data-fromdatetime` attribute, the attribute lookup defaults to `None`, the
cell is still counted in `len(time_slots)`, and the `[:-3]` slice applied to
`None` raises `TypeError`, so `parse_available_times` raises instead of
producing a report. -/
theorem c10_missing_attribute :
    parse_available_times [tNoAttr] = .error .typeError ∧
    (tNoAttr.cells.map (fun c => c.fromdatetime)).length = 1 ∧
    (tNoAttr.cells.map (fun c => c.fromdatetime)).head? = some none :=
  ⟨rfl, rfl, rfl⟩

theorem c4_base_parses : strptime "2024-06-01 09:30" = some ⟨2024, 6, 1, 9, 30⟩ := by decide

/-- Claim C4 (amended): the `[:-3]` slice removes exactly the final three
characters, so an attribute value of the form `2024-06-01 09:30` plus
exactly three trailing characters trims to `2024-06-01 09:30`, which the
strict `%Y-%m-%d %H:%M` parse accepts as June 1 2024, 09:30; a value with
four or more trailing characters (such as `2024-06-01 09:30:00+`) trims to
a longer string that the strict parse rejects. -/
theorem c4_trim_three (suffix : List Char) (h3 : suffix.length = 3) :
    pyTrim3 (String.mk ("2024-06-01 09:30".data ++ suffix)) = "2024-06-01 09:30" ∧
    strptime "2024-06-01 09:30" = some ⟨2024, 6, 1, 9, 30⟩ := by
  refine ⟨?_, c4_base_parses⟩
  unfold pyTrim3
  have hlen : (("2024-06-01 09:30".data ++ suffix)).length =
      ("2024-06-01 09:30".data).length + 3 := by
    rw [List.length_append, h3]
  show String.mk ((("2024-06-01 09:30".data ++ suffix)).take
    ((("2024-06-01 09:30".data ++ suffix)).length - 3)) = "2024-06-01 09:30"
  rw [hlen, Nat.add_sub_cancel, List.take_left]

/-- Claim C4 as stated is false on the code: the spec's own example value
`2024-06-01 09:30:00+` has four trailing characters after the minutes, so
the slice leaves a trailing colon and the strict parse raises `ValueError`. -/
theorem c4_counterexample :
    pyTrim3 "2024-06-01 09:30:00+" = "2024-06-01 09:30:" ∧
    ("2024-06-01 09:30:" : String) ≠ "2024-06-01 09:30" ∧
    strptime (pyTrim3 "2024-06-01 09:30:00+") = none :=
  ⟨by decide, by decide, by decide⟩

/-- Witness for C4: the three-character suffix `:00` actually served by the
site trims away cleanly. -/
theorem c4_witness :
    pyTrim3 (String.mk ("2024-06-01 09:30".data ++ ":00".data)) = "2024-06-01 09:30" ∧
    strptime "2024-06-01 09:30" = some ⟨2024, 6, 1, 9, 30⟩ :=
  c4_trim_three ":00".data (by decide)

theorem mainGo_contained (env : String → RegionEnv)
    (hc : ∀ r e, processRegion (env r) = .error e → e.isRequestException = true) :
    ∀ (rs : List (String × String)) (acc : List (String × RegionOutcome)),
      (mainGo env rs acc).outcomes.map Prod.fst =
        (acc.reverse.map Prod.fst) ++ rs.map Prod.fst ∧
      (mainGo env rs acc).summaryPrinted = true := by
  intro rs
  induction rs with
  | nil => intro acc; simp [mainGo]
  | cons p rest ih =>
    intro acc
    obtain ⟨region, sgid⟩ := p
    cases hp : processRegion (env region) with
    | ok rep =>
      obtain ⟨ih1, ih2⟩ := ih ((region, .succeeded rep) :: acc)
      constructor
      · simp only [mainGo, hp]
        rw [ih1]
        simp
      · simp only [mainGo, hp]
        exact ih2
    | error e =>
      have hreq := hc region e hp
      obtain ⟨ih1, ih2⟩ := ih ((region, .failedCaught e) :: acc)
      constructor
      · simp only [mainGo, hp, hreq, if_true]
        rw [ih1]
        simp
      · simp only [mainGo, hp, hreq, if_true]
        exact ih2

/-- Claim C3 (amended): failures of the `requests.exceptions.RequestException`
family — wizard-step redirect failures, HTTP status errors and network
failures — are contained at the per-region boundary: when every region
failure is of that family, the loop attempts every configured region in
order and the final elapsed-time summary is printed. A parse failure on a
region's HTML (`ValueError`/`TypeError`) is not of that family: it escapes
the `except` clause, aborting the loop before later regions and before the
summary. -/
theorem c3_requests_contained (env : String → RegionEnv)
    (hc : ∀ r e, processRegion (env r) = .error e → e.isRequestException = true) :
    (mainLoop env).outcomes.map Prod.fst = regions.map Prod.fst ∧
    (mainLoop env).summaryPrinted = true := by
  have h := mainGo_contained env hc regions []
  simpa [mainLoop] using h

/-- Claim C3 as stated is false on the code: a region whose wizard walk
succeeds but whose HTML raises a parse `ValueError` aborts the whole loop —
no region outcome is recorded, the two remaining regions are never
attempted, and the final summary line is never printed. -/
theorem c3_counterexample :
    processRegion badEnv = .error (.valueError "not a datet") ∧
    PyExc.isRequestException (.valueError "not a datet") = false ∧
    mainLoop (fun _ => badEnv) = ⟨[], false, some (.valueError "not a datet")⟩ ∧
    (mainLoop (fun _ => badEnv)).outcomes.map Prod.fst ≠ regions.map Prod.fst ∧
    (mainLoop (fun _ => badEnv)).summaryPrinted = false :=
  ⟨rfl, rfl, rfl, by decide, rfl⟩

/-- Witness for C3: an environment in which every region succeeds satisfies
the containment hypothesis, and the loop reaches every region and the
summary. -/
theorem c3_witness :
    (mainLoop (fun _ => goodEnv)).outcomes.map Prod.fst = regions.map Prod.fst ∧
    (mainLoop (fun _ => goodEnv)).summaryPrinted = true :=
  c3_requests_contained (fun _ => goodEnv) (by
    intro r e h
    rw [show processRegion goodEnv = .ok ⟨0, 0, none⟩ from rfl] at h
    exact Except.noConfusion h)

theorem renderEq (v : Int) (hv : 0 ≤ v) (sg pl : String) :
    (if v = 0 then ([] : List String) else
      [toString v ++ " " ++ (if v > 1 then pl else sg)]) =
    (if v = 0 then ([] : List String) else
      [toString v ++ " " ++ (if v = 1 then sg else pl)]) := by
  rcases eq_or_ne v 0 with h | h
  · rw [if_pos h, if_pos h]
  · rw [if_neg h, if_neg h]
    have hw : (if v > 1 then pl else sg) = (if v = 1 then sg else pl) := by
      split_ifs <;> first | rfl | omega
    rw [hw]

theorem human_readable_eq_spec (rd : RelativeDelta) (hy : 0 ≤ rd.years)
    (hm : 0 ≤ rd.months) (hd : 0 ≤ rd.days) :
    human_readable rd = specDurationComponents rd := by
  unfold human_readable specDurationComponents specSwedishNoun
  rw [renderEq rd.years hy, renderEq rd.months hm, renderEq rd.days hd]

theorem untilText_eq_specJoin (l : List String) : untilText l = specJoinText l := by
  match l with
  | [] => rfl
  | [x] => rfl
  | x :: y :: rest =>
    unfold untilText specJoinText
    rw [if_pos (by simp)]

theorem untilText_isSome {l : List String} (h : l ≠ []) :
    (untilText l).isSome = true := by
  match l with
  | [] => exact absurd rfl h
  | [x] => rfl
  | x :: y :: rest =>
    unfold untilText
    rw [if_pos (by simp)]
    rfl

theorem human_readable_ne_nil (rd : RelativeDelta)
    (hnz : rd.years ≠ 0 ∨ rd.months ≠ 0 ∨ rd.days ≠ 0) : human_readable rd ≠ [] := by
  unfold human_readable
  rcases eq_or_ne rd.years 0 with h1 | h1 <;> rcases eq_or_ne rd.months 0 with h2 | h2 <;>
    rcases eq_or_ne rd.days 0 with h3 | h3 <;> simp [h1, h2, h3] <;> tauto

/-- Claim C7: for every relative delta with nonnegative components and at
least one nonzero, the duration text is the nonzero components among years,
months, days rendered with the correct Swedish singular/plural noun, joined
with commas and a final och before the last, with no conjunction for a
single component; the delta from 2025-01-10 to 2025-03-15 renders as
`2 månader och 5 dagar`, and a delta of exactly one year as `1 år`. -/
theorem c7_duration_text :
    (∀ rd : RelativeDelta, 0 ≤ rd.years → 0 ≤ rd.months → 0 ≤ rd.days →
      (rd.years ≠ 0 ∨ rd.months ≠ 0 ∨ rd.days ≠ 0) →
      untilText (human_readable rd) = specJoinText (specDurationComponents rd) ∧
      (untilText (human_readable rd)).isSome = true) ∧
    untilText (human_readable (relativedelta ⟨2025, 3, 15, 0, 0⟩ ⟨2025, 1, 10, 0, 0⟩)) =
      some "2 månader och 5 dagar" ∧
    relativedelta ⟨2026, 1, 10, 0, 0⟩ ⟨2025, 1, 10, 0, 0⟩ = ⟨1, 0, 0⟩ ∧
    untilText (human_readable ⟨1, 0, 0⟩) = some "1 år" := by
  refine ⟨?_, by decide, by decide, by decide⟩
  intro rd hy hm hd hnz
  refine ⟨?_, untilText_isSome (human_readable_ne_nil rd hnz)⟩
  rw [human_readable_eq_spec rd hy hm hd, untilText_eq_specJoin]

/-- Witness for C7: the components two months and five days. -/
theorem c7_witness :
    untilText (human_readable ⟨0, 2, 5⟩) =
      specJoinText (specDurationComponents ⟨0, 2, 5⟩) ∧
    (untilText (human_readable ⟨0, 2, 5⟩)).isSome = true :=
  c7_duration_text.1 ⟨0, 2, 5⟩ (by decide) (by decide) (by decide) (by decide)

/-- Claim C8: the mood indicator thresholds, in evaluation order: at least
one year the worst mood, otherwise at least one month the bad mood,
otherwise more than 25 days the neutral-positive mood, otherwise more than
15 days the good mood, otherwise the best mood. -/
theorem c8_mood_thresholds (rd : RelativeDelta) :
    (1 ≤ rd.years → selectIcon rd = ":angry_face:") ∧
    (rd.years < 1 → 1 ≤ rd.months → selectIcon rd = ":weary_face:") ∧
    (rd.years < 1 → rd.months < 1 → 25 < rd.days →
      selectIcon rd = ":slightly_smiling_face:") ∧
    (rd.years < 1 → rd.months < 1 → rd.days ≤ 25 → 15 < rd.days →
      selectIcon rd = ":beaming_face_with_smiling_eyes:") ∧
    (rd.years < 1 → rd.months < 1 → rd.days ≤ 15 →
      selectIcon rd = ":star-struck:") := by
  unfold selectIcon
  refine ⟨?_, ?_, ?_, ?_, ?_⟩ <;> intros <;> split_ifs <;> first | rfl | omega

/-- Witness for C8: twenty days gets the good mood. -/
theorem c8_witness : selectIcon ⟨0, 0, 20⟩ = ":beaming_face_with_smiling_eyes:" :=
  (c8_mood_thresholds ⟨0, 0, 20⟩).2.2.2.1 (by decide) (by decide) (by decide) (by decide)

theorem firstMarkerIndex_cons (c : Char) (rest : List Char) :
    firstMarkerIndex (c :: rest) =
      if startsWithChars urlMarker (c :: rest) then some 0
      else (firstMarkerIndex rest).map (fun k => k + 1) := rfl

theorem cutAtMarker_of_none : ∀ cs : List Char, firstMarkerIndex cs = none →
    cutAtMarker cs = cs := by
  intro cs
  induction cs with
  | nil => intro; rfl
  | cons c rest ih =>
    intro h
    rw [firstMarkerIndex_cons] at h
    by_cases hsw : startsWithChars urlMarker (c :: rest) = true
    · rw [if_pos hsw] at h
      exact Option.noConfusion h
    · rw [if_neg hsw] at h
      have hrest : firstMarkerIndex rest = none := Option.map_eq_none.mp h
      show (if startsWithChars urlMarker (c :: rest) then [] else c :: cutAtMarker rest) =
        c :: rest
      rw [if_neg hsw, ih hrest]

theorem cutAtMarker_of_some : ∀ (cs : List Char) (k : Nat), firstMarkerIndex cs = some k →
    cutAtMarker cs = cs.take k := by
  intro cs
  induction cs with
  | nil => intro k h; exact Option.noConfusion h
  | cons c rest ih =>
    intro k h
    rw [firstMarkerIndex_cons] at h
    by_cases hsw : startsWithChars urlMarker (c :: rest) = true
    · rw [if_pos hsw] at h
      cases Option.some.inj h
      show (if startsWithChars urlMarker (c :: rest) then [] else c :: cutAtMarker rest) =
        (c :: rest).take 0
      rw [if_pos hsw]
      rfl
    · rw [if_neg hsw] at h
      cases hr : firstMarkerIndex rest with
      | none => rw [hr] at h; exact Option.noConfusion h
      | some j =>
        rw [hr] at h
        cases Option.some.inj h
        show (if startsWithChars urlMarker (c :: rest) then [] else c :: cutAtMarker rest) =
          (c :: rest).take (j + 1)
        rw [if_neg hsw, ih j hr]
        rfl

theorem splitOnNl_single : ∀ cs : List Char, '\n' ∉ cs → splitOnNl cs = [cs] := by
  intro cs
  induction cs with
  | nil => intro; rfl
  | cons c rest ih =>
    intro h
    have hc : c ≠ '\n' := fun hc => h (hc ▸ List.mem_cons_self c rest)
    have hrest : '\n' ∉ rest := fun hr => h (List.mem_cons_of_mem c hr)
    show (let r := splitOnNl rest
      if c = '\n' then [] :: r
      else
        match r with
        | [] => [[c]]
        | line :: more => (c :: line) :: more) = [c :: rest]
    rw [ih hrest]
    simp [hc]

/-- Claim C9 (amended): the sanitization cuts each line of the message at
its first occurrence of the marker (the regex `.` cannot cross a newline),
so on newline-free messages it removes everything from the first occurrence
of the marker onward, and leaves messages without the marker unchanged. -/
theorem c9_sanitize (cs : List Char) (hnl : '\n' ∉ cs) :
    (firstMarkerIndex cs = none → sanitize_message (String.mk cs) = String.mk cs) ∧
    (∀ k, firstMarkerIndex cs = some k →
      sanitize_message (String.mk cs) = String.mk (cs.take k)) := by
  have hone : sanitize_message (String.mk cs) = String.mk (cutAtMarker cs) := by
    unfold sanitize_message
    rw [show (String.mk cs).data = cs from rfl, splitOnNl_single cs hnl]
    rfl
  constructor
  · intro h
    rw [hone, cutAtMarker_of_none cs h]
  · intro k h
    rw [hone, cutAtMarker_of_some cs k h]

/-- Claim C9 as stated is false on the code: on a message containing a
newline after the matched region, the substitution removes only to the end
of that line, not everything from the first occurrence onward. -/
theorem c9_counterexample :
    firstMarkerIndex ("a for url: b\nc").data = some 1 ∧
    sanitize_message "a for url: b\nc" = "a\nc" ∧
    sanitize_message "a for url: b\nc" ≠ String.mk (("a for url: b\nc").data.take 1) :=
  ⟨rfl, rfl, by decide⟩

/-- Witness for C9: a single-line message is cut at the first occurrence. -/
theorem c9_witness :
    sanitize_message (String.mk "boom for url: x".data) =
      String.mk ("boom for url: x".data.take 4) :=
  (c9_sanitize "boom for url: x".data (by decide)).2 4 (by decide)

end Passtider
